import Mathlib

/-!
# BridgePay settlement engine — shallow embedding

A shallow embedding of `src/contracts/BridgePay.sol` (Solidity ^0.8.19).

Modelling conventions:
* `address` and `bytes32` are `Nat`; the null address is `0`.
* The derived transaction identifier `keccak256(abi.encodePacked(from, to,
  amount, nonce, expiry, clientTxId))` is modelled by the injective tuple
  `TxKey` of those six fields (an ideal, collision-free hash).
* ECDSA recovery over the EIP-712 digest is modelled by `recover`: a
  signature carries the identity it recovers to together with the tuple of
  fields it signed; recovery fails (OpenZeppelin reverts) when the signed
  tuple does not match the digest or the recovered identity is null.
* Solidity mappings are total functions with the zero/default value,
  exactly as in the EVM; a stored `Transaction` exists iff its `from_`
  field is non-null, which is the check the contract itself performs.
* EVM revert semantics: each external function is a Lean function
  `... → State → Except Err State`; `.error` corresponds to a revert, and
  `exec` keeps the pre-state on a revert.
* The `nonReentrant` modifier (OpenZeppelin ReentrancyGuard) is the
  `locked` flag checked at entry of exactly those functions that carry the
  modifier in the source; `onlyRole` is checked first, matching the
  modifier order in the source.
-/

namespace BridgePay

abbrev Addr := Nat
abbrev B32 := Nat

/-- Source `enum TxStatus { PENDING, FINALIZED, REJECTED, AUTO_FINALIZED }`;
`PENDING` is the Solidity default value 0. -/
inductive TxStatus where
  | PENDING
  | FINALIZED
  | REJECTED
  | AUTO_FINALIZED
deriving DecidableEq

/-- The six fields hashed into the derived transaction identifier
(`abi.encodePacked(from, to, amount, nonce, expiry, clientTxId)`);
also the struct content of the EIP-712 typed data. -/
structure TxKey where
  from_ : Addr
  to_ : Addr
  amount : Nat
  nonce : Nat
  expiry : Nat
  clientTxId : B32
deriving DecidableEq

/-- Source `struct Transaction` of the contract (`from` is a Lean keyword, hence
`from_`). -/
structure Transaction where
  from_ : Addr
  to_ : Addr
  amount : Nat
  nonce : Nat
  expiry : Nat
  clientTxId : B32
  submittedAt : Nat
  finalizedAt : Nat
  status : TxStatus
  relayer : Addr
deriving DecidableEq

/-- The default value of `mapping(bytes32 => Transaction)`: all fields
zero, status `PENDING` (enum value 0). -/
def emptyTransaction : Transaction :=
  { from_ := 0, to_ := 0, amount := 0, nonce := 0, expiry := 0, clientTxId := 0,
    submittedAt := 0, finalizedAt := 0, status := .PENDING, relayer := 0 }

/-- An ECDSA signature, idealized: it determines the identity that
recovery returns and the typed data it was produced over. -/
structure Sig where
  signer : Addr
  signed : TxKey
deriving DecidableEq

/-- Models `ECDSA.recover` on the EIP-712 digest `_hashTypedDataV4(structHash)`:
returns the signing identity when the signature matches the digest of the
given fields, `none` (an OpenZeppelin revert, error `InvalidSignature`)
otherwise; a recovered null address is rejected by OpenZeppelin. -/
def recover (digest : TxKey) (sig : Sig) : Option Addr :=
  if sig.signed = digest ∧ sig.signer ≠ 0 then some sig.signer else none

/-- Source `uint256 public constant DISPUTE_WINDOW = 7 days;`. -/
def DISPUTE_WINDOW : Nat := 7 * 86400

/-- Source `uint256 public constant FORCE_FINALIZE_DELAY = 14 days;`. -/
def FORCE_FINALIZE_DELAY : Nat := 14 * 86400

/-- Source `uint256 public constant MULTISIG_THRESHOLD = 3;`. -/
def MULTISIG_THRESHOLD : Nat := 3

/-- Discrete rejection kinds, one per `require` in the source, named after
the specification's error vocabulary (§7):
`"Invalid recipient"` ↦ `InvalidRecipient`, `"Amount must be > 0"` ↦
`InvalidAmount`, `"Transaction expired"` at registration ↦ `AlreadyExpired`
and at finalize ↦ `Expired`, `"ClientTxId already used"` ↦
`DuplicateDedupToken`, `"Invalid nonce"` ↦ `InvalidNonce`, ECDSA failure ↦
`InvalidSignature`, `"Transaction already exists"` ↦ `DuplicateTransaction`,
`"Transaction not found"` ↦ `NotFound`, `"Transaction not pending"` ↦
`InvalidState`, `"Dispute window active"` ↦ `DisputeWindowActive`,
`"Dispute window closed"` ↦ `DisputeWindowClosed`, `"Only involved parties
can dispute"` and a failed `onlyRole` check ↦ `Unauthorized`, `"14-day
delay not elapsed"` ↦ `EscalationNotYetEligible`, `"Already signed"` ↦
`AlreadyApproved`, `"Insufficient balance"` ↦ `InsufficientFunds`, and the
ReentrancyGuard rejection ↦ `Reentrancy`. -/
inductive Err where
  | InvalidRecipient
  | InvalidAmount
  | AlreadyExpired
  | DuplicateDedupToken
  | InvalidNonce
  | InvalidSignature
  | DuplicateTransaction
  | NotFound
  | InvalidState
  | Expired
  | DisputeWindowActive
  | DisputeWindowClosed
  | Unauthorized
  | EscalationNotYetEligible
  | AlreadyApproved
  | InsufficientFunds
  | Reentrancy
deriving DecidableEq

/-- Pointwise update of a mapping, as an EVM storage write. -/
def mapUpd {α β : Type} [DecidableEq α] (f : α → β) (k : α) (v : β) : α → β :=
  fun a => if a = k then v else f a

/-- The two consecutive ledger writes `balances[tx.from] -= tx.amount;
balances[tx.to] += tx.amount` shared by `finalizeTx` and `forceFinalize`
(the specification's `transferInternal` accounting, §4.2). -/
def transferInternal (bal : Addr → Nat) (from_ to_ amount : Nat) : Addr → Nat :=
  let b1 := mapUpd bal from_ (bal from_ - amount)
  mapUpd b1 to_ (b1 to_ + amount)

/-- The contract's mutable storage plus the role assignments
(`RELAYER_ROLE`, `MULTISIG_ROLE`) and the ReentrancyGuard flag. -/
structure State where
  transactions : TxKey → Transaction
  balances : Addr → Nat
  nonces : Addr → Nat
  clientTxIdUsed : B32 → Bool
  forceFinalizeSigs : TxKey → List Addr
  relayerRole : Addr → Bool
  multisigRole : Addr → Bool
  locked : Bool

/-- Source `function deposit() external payable` — no role gate, no
`nonReentrant` modifier. `msg.value` is `value`. -/
def deposit (msgSender : Addr) (value : Nat) (s : State) : Except Err State :=
  if 0 < value then
    .ok { s with balances := mapUpd s.balances msgSender (s.balances msgSender + value) }
  else .error .InvalidAmount

/-- Source `function withdraw(uint256 amount) external nonReentrant` — the debit
is committed before the external payout (not modelled: it leaves the
engine). -/
def withdraw (msgSender : Addr) (amount : Nat) (s : State) : Except Err State :=
  if s.locked then .error .Reentrancy
  else if s.balances msgSender ≥ amount then
    .ok { s with balances := mapUpd s.balances msgSender (s.balances msgSender - amount) }
  else .error .InsufficientFunds

/-- Source `function submitOfflineTx(...) external onlyRole(RELAYER_ROLE)` — note:
no `nonReentrant` modifier in the source. Checks in source order; returns
the derived transaction identifier. -/
def submitOfflineTx (msgSender : Addr) (now : Nat)
    (from_ to_ amount : Nat) (signature : Sig) (nonce expiry : Nat)
    (clientTxId : B32) (s : State) : Except Err (State × TxKey) :=
  if s.relayerRole msgSender then
    if to_ ≠ 0 then
      if 0 < amount then
        if expiry > now then
          if s.clientTxIdUsed clientTxId then .error .DuplicateDedupToken
          else if s.nonces from_ = nonce then
            match recover ⟨from_, to_, amount, nonce, expiry, clientTxId⟩ signature with
            | none => .error .InvalidSignature
            | some recoveredSigner =>
              if recoveredSigner = from_ then
                if (s.transactions ⟨from_, to_, amount, nonce, expiry, clientTxId⟩).from_ = 0 then
                  .ok ({ s with
                    transactions := mapUpd s.transactions
                      ⟨from_, to_, amount, nonce, expiry, clientTxId⟩
                      { from_ := from_, to_ := to_, amount := amount, nonce := nonce,
                        expiry := expiry, clientTxId := clientTxId,
                        submittedAt := now, finalizedAt := 0,
                        status := .PENDING, relayer := msgSender },
                    clientTxIdUsed := mapUpd s.clientTxIdUsed clientTxId true },
                    ⟨from_, to_, amount, nonce, expiry, clientTxId⟩)
                else .error .DuplicateTransaction
              else .error .InvalidSignature
          else .error .InvalidNonce
        else .error .AlreadyExpired
      else .error .InvalidAmount
    else .error .InvalidRecipient
  else .error .Unauthorized

/-- Source `function finalizeTx(bytes32 txHash) external onlyRole(RELAYER_ROLE)
nonReentrant` — checks in source order, then debit/credit, status
`FINALIZED`, `finalizedAt`, nonce increment. -/
def finalizeTx (msgSender : Addr) (now : Nat) (txHash : TxKey)
    (s : State) : Except Err State :=
  if s.relayerRole msgSender then
    if s.locked then .error .Reentrancy
    else
      if (s.transactions txHash).from_ ≠ 0 then
        if (s.transactions txHash).status = .PENDING then
          if now ≤ (s.transactions txHash).expiry then
            if now ≥ (s.transactions txHash).submittedAt + DISPUTE_WINDOW then
              if s.balances (s.transactions txHash).from_ ≥ (s.transactions txHash).amount then
                .ok { s with
                  balances := transferInternal s.balances (s.transactions txHash).from_
                    (s.transactions txHash).to_ (s.transactions txHash).amount,
                  transactions := mapUpd s.transactions txHash
                    { s.transactions txHash with status := .FINALIZED, finalizedAt := now },
                  nonces := mapUpd s.nonces (s.transactions txHash).from_
                    (s.nonces (s.transactions txHash).from_ + 1) }
              else .error .InsufficientFunds
            else .error .DisputeWindowActive
          else .error .Expired
        else .error .InvalidState
      else .error .NotFound
  else .error .Unauthorized

/-- Source `function forceFinalize(bytes32 txHash) external
onlyRole(MULTISIG_ROLE) nonReentrant` — appends the approver; at quorum,
performs the transfer and sets `AUTO_FINALIZED`. No expiry check appears
in the source. -/
def forceFinalize (msgSender : Addr) (now : Nat) (txHash : TxKey)
    (s : State) : Except Err State :=
  if s.multisigRole msgSender then
    if s.locked then .error .Reentrancy
    else
      if (s.transactions txHash).from_ ≠ 0 then
        if (s.transactions txHash).status = .PENDING then
          if now ≥ (s.transactions txHash).submittedAt + FORCE_FINALIZE_DELAY then
            if msgSender ∈ s.forceFinalizeSigs txHash then .error .AlreadyApproved
            else
              if (s.forceFinalizeSigs txHash ++ [msgSender]).length ≥ MULTISIG_THRESHOLD then
                if s.balances (s.transactions txHash).from_ ≥ (s.transactions txHash).amount then
                  .ok { s with
                    balances := transferInternal s.balances (s.transactions txHash).from_
                      (s.transactions txHash).to_ (s.transactions txHash).amount,
                    forceFinalizeSigs := mapUpd s.forceFinalizeSigs txHash
                      (s.forceFinalizeSigs txHash ++ [msgSender]),
                    transactions := mapUpd s.transactions txHash
                      { s.transactions txHash with status := .AUTO_FINALIZED, finalizedAt := now },
                    nonces := mapUpd s.nonces (s.transactions txHash).from_
                      (s.nonces (s.transactions txHash).from_ + 1) }
                else .error .InsufficientFunds
              else
                .ok { s with forceFinalizeSigs := mapUpd s.forceFinalizeSigs txHash
                                (s.forceFinalizeSigs txHash ++ [msgSender]) }
          else .error .EscalationNotYetEligible
        else .error .InvalidState
      else .error .NotFound
  else .error .Unauthorized

/-- Source `function disputeTx(bytes32 txHash, bytes calldata evidence) external`
— open to any caller, no `nonReentrant` modifier; the involved-party check
comes after the timing check, as in the source; evidence is an opaque
payload with no state effect. -/
def disputeTx (msgSender : Addr) (now : Nat) (txHash : TxKey)
    (evidence : List Nat) (s : State) : Except Err State :=
  if (s.transactions txHash).from_ ≠ 0 then
    if (s.transactions txHash).status = .PENDING then
      if now < (s.transactions txHash).submittedAt + DISPUTE_WINDOW then
        if msgSender = (s.transactions txHash).from_ ∨ msgSender = (s.transactions txHash).to_ then
          .ok { s with transactions := mapUpd s.transactions txHash
                         { s.transactions txHash with status := TxStatus.REJECTED } }
        else .error .Unauthorized
      else .error .DisputeWindowClosed
    else .error .InvalidState
  else .error .NotFound

/-- One external call into the engine, with its caller, call-time and
arguments. -/
inductive Call where
  | deposit (msgSender : Addr) (value : Nat)
  | withdraw (msgSender : Addr) (amount : Nat)
  | submitOfflineTx (msgSender : Addr) (now : Nat) (from_ to_ amount : Nat)
      (signature : Sig) (nonce expiry : Nat) (clientTxId : B32)
  | finalizeTx (msgSender : Addr) (now : Nat) (txHash : TxKey)
  | forceFinalize (msgSender : Addr) (now : Nat) (txHash : TxKey)
  | disputeTx (msgSender : Addr) (now : Nat) (txHash : TxKey) (evidence : List Nat)

/-- Run one call; `.error` is an EVM revert. -/
def run (s : State) : Call → Except Err State
  | .deposit m v => deposit m v s
  | .withdraw m v => withdraw m v s
  | .submitOfflineTx m now f t a sig n e c =>
      (submitOfflineTx m now f t a sig n e c s).map Prod.fst
  | .finalizeTx m now h => finalizeTx m now h s
  | .forceFinalize m now h => forceFinalize m now h s
  | .disputeTx m now h ev => disputeTx m now h ev s

/-- The state after a call: a revert leaves the state untouched. -/
def exec (s : State) (c : Call) : State :=
  match run s c with
  | .ok s' => s'
  | .error _ => s

/-- The rejection kind of a call's outcome, `none` on success. -/
def errOf (r : Except Err State) : Option Err :=
  match r with
  | .ok _ => none
  | .error e => some e

/-- The nonce increment the specification prescribes for one call, stated
from the spec's words (§8): `1` for identity `a` exactly on a successful
`finalizeTx` of a transfer whose sender is `a`, and on a successful
quorum-reaching `forceFinalize` of such a transfer; `0` on every other
call outcome. -/
def nonceDeltaSpec (s : State) (c : Call) (a : Addr) : Nat :=
  match c with
  | .finalizeTx m now h =>
      if errOf (finalizeTx m now h s) = none ∧ (s.transactions h).from_ = a
      then 1 else 0
  | .forceFinalize m now h =>
      if errOf (forceFinalize m now h s) = none ∧ (s.transactions h).from_ = a
         ∧ (s.forceFinalizeSigs h).length + 1 ≥ MULTISIG_THRESHOLD
      then 1 else 0
  | _ => 0

/-- Reachable-state invariant: a transaction slot whose sender is the
null address is an untouched default slot, so its status is the Solidity
zero value `PENDING`. It holds in the deployment state and is preserved by
every call (`exec_WF`). -/
def WF (s : State) : Prop :=
  ∀ k, (s.transactions k).from_ = 0 → (s.transactions k).status = .PENDING

/-! ### Concrete scaffolding

A deployment-like state and short call traces, used by the concrete
counterexamples and witnesses below. Identity `1` is the deployer (holds
the relayer and the multisig capability, as granted in the constructor);
`8` and `9` hold the multisig capability (grantable through the inherited
AccessControl admin role); `2`, `3`, `4` are client identities. -/

/-- Empty storage; roles as described above; guard not held. -/
def initState : State :=
  { transactions := fun _ => emptyTransaction,
    balances := fun _ => 0,
    nonces := fun _ => 0,
    clientTxIdUsed := fun _ => false,
    forceFinalizeSigs := fun _ => [],
    relayerRole := fun a => a == 1,
    multisigRole := fun a => a == 1 || a == 8 || a == 9,
    locked := false }

/-- Fields of a transfer: 50 units from `2` to `3`, nonce 0, expiry
1000000, dedup token 11. -/
def k1 : TxKey :=
  { from_ := 2, to_ := 3, amount := 50, nonce := 0, expiry := 1000000, clientTxId := 11 }

/-- Fields of a transfer: 80 units from `2` to `3`, nonce 0, expiry
2000000, dedup token 21. -/
def k0 : TxKey :=
  { from_ := 2, to_ := 3, amount := 80, nonce := 0, expiry := 2000000, clientTxId := 21 }

/-- Fields of a transfer: 80 units from `2` to `4`, nonce 1, expiry
2000000, dedup token 22. -/
def kN1 : TxKey :=
  { from_ := 2, to_ := 4, amount := 80, nonce := 1, expiry := 2000000, clientTxId := 22 }

/-- Fields of a transfer with a short expiry: 50 units from `2` to `3`,
nonce 0, expiry 100, dedup token 31. -/
def kX : TxKey :=
  { from_ := 2, to_ := 3, amount := 50, nonce := 0, expiry := 100, clientTxId := 31 }

/-- State with `k1` registered at time 0 by relayer `1`. -/
def stAfterFirstSubmit : State :=
  exec initState (.submitOfflineTx 1 0 2 3 50 ⟨2, k1⟩ 0 1000000 11)

/-- State after identity `2` deposited 100 units. -/
def stDeposited : State :=
  exec initState (.deposit 2 100)

/-- Continuing, then `k0` (80 units, declared nonce 0) registered at time 0. -/
def stRegistered0 : State :=
  exec stDeposited (.submitOfflineTx 1 0 2 3 80 ⟨2, k0⟩ 0 2000000 21)

/-- Continuing, then `k0` finalized at time 604800 (dispute window just lapsed). -/
def stFinalized0 : State :=
  exec stRegistered0 (.finalizeTx 1 604800 k0)

/-- Continuing, then `kN1` (80 more units, declared nonce 1) registered at time
604800, while `2`'s remaining balance is only 20. -/
def stRegistered1 : State :=
  exec stFinalized0 (.submitOfflineTx 1 604800 2 4 80 ⟨2, kN1⟩ 1 2000000 22)

/-- State with `kX` (expiry 100) registered at time 0, no deposit made. -/
def stShortExpiry : State :=
  exec initState (.submitOfflineTx 1 0 2 3 50 ⟨2, kX⟩ 0 100 31)

/-- State with `k0` registered at time 0 with no deposit: the balance of `2` stays 0. -/
def stNoFunds : State :=
  exec initState (.submitOfflineTx 1 0 2 3 80 ⟨2, k0⟩ 0 2000000 21)

/-- Continuing, then multisig holder `8` approved force-finalize at 1209600. -/
def stOneApproval : State :=
  exec stNoFunds (.forceFinalize 8 1209600 k0)

/-- Continuing, then multisig holder `9` approved: two approvals on record. -/
def stTwoApprovals : State :=
  exec stOneApproval (.forceFinalize 9 1209600 k0)

/-- The deployment state with the reentrancy flag held (a nested call in
progress). -/
def stLocked : State :=
  { initState with locked := true }

/-- The state `stRegistered0` with the reentrancy flag held. -/
def stLockedPending : State :=
  { stRegistered0 with locked := true }

/-- State with `kX` approved by `8` and `9` at 1209600 (past its expiry 100),
then a deposit of 100 by `2`. -/
def stExpiredTwoApprovals : State :=
  exec (exec (exec stShortExpiry (.forceFinalize 8 1209600 kX))
    (.forceFinalize 9 1209600 kX)) (.deposit 2 100)

/-! ### Inversion lemmas

One lemma per operation, characterising the successful outcome: the exact
conjunction of the guards that passed and the exact post-state. -/

theorem deposit_ok_elim {m v : Nat} {s s' : State}
    (hd : deposit m v s = .ok s') :
    0 < v ∧ s' = { s with balances := mapUpd s.balances m (s.balances m + v) } := by
  unfold deposit at hd
  split at hd
  · exact ⟨by assumption, by injection hd with h; exact h.symm⟩
  · simp at hd

theorem withdraw_ok_elim {m v : Nat} {s s' : State}
    (hw : withdraw m v s = .ok s') :
    s.locked = false ∧ v ≤ s.balances m
    ∧ s' = { s with balances := mapUpd s.balances m (s.balances m - v) } := by
  unfold withdraw at hw
  repeat' split at hw
  all_goals simp_all

theorem submitOfflineTx_ok_elim {m now f t a n e c : Nat} {sig : Sig}
    {s s' : State} {k : TxKey}
    (hs : submitOfflineTx m now f t a sig n e c s = .ok (s', k)) :
    s.relayerRole m = true ∧ t ≠ 0 ∧ 0 < a ∧ e > now
    ∧ s.clientTxIdUsed c = false ∧ s.nonces f = n ∧ f ≠ 0
    ∧ k = { from_ := f, to_ := t, amount := a, nonce := n, expiry := e, clientTxId := c }
    ∧ (s.transactions k).from_ = 0
    ∧ s' = { s with
        transactions := mapUpd s.transactions k
          { from_ := f, to_ := t, amount := a, nonce := n, expiry := e,
            clientTxId := c, submittedAt := now, finalizedAt := 0,
            status := .PENDING, relayer := m },
        clientTxIdUsed := mapUpd s.clientTxIdUsed c true } := by
  unfold submitOfflineTx at hs
  repeat' split at hs
  all_goals simp_all [recover]
  obtain ⟨h1, h2⟩ := hs
  subst h2
  exact h1.symm

theorem finalizeTx_ok_elim {m now : Nat} {h : TxKey} {s s' : State}
    (hf : finalizeTx m now h s = .ok s') :
    s.relayerRole m = true ∧ s.locked = false
    ∧ (s.transactions h).from_ ≠ 0 ∧ (s.transactions h).status = .PENDING
    ∧ now ≤ (s.transactions h).expiry
    ∧ now ≥ (s.transactions h).submittedAt + DISPUTE_WINDOW
    ∧ (s.transactions h).amount ≤ s.balances (s.transactions h).from_
    ∧ s' = { s with
        balances := transferInternal s.balances (s.transactions h).from_
          (s.transactions h).to_ (s.transactions h).amount,
        transactions := mapUpd s.transactions h
          { s.transactions h with status := .FINALIZED, finalizedAt := now },
        nonces := mapUpd s.nonces (s.transactions h).from_
          (s.nonces (s.transactions h).from_ + 1) } := by
  unfold finalizeTx at hf
  repeat' split at hf
  all_goals simp_all

theorem forceFinalize_ok_elim {m now : Nat} {h : TxKey} {s s' : State}
    (hf : forceFinalize m now h s = .ok s') :
    s.multisigRole m = true ∧ s.locked = false
    ∧ (s.transactions h).from_ ≠ 0 ∧ (s.transactions h).status = .PENDING
    ∧ now ≥ (s.transactions h).submittedAt + FORCE_FINALIZE_DELAY
    ∧ m ∉ s.forceFinalizeSigs h
    ∧ ((  (s.forceFinalizeSigs h).length + 1 ≥ MULTISIG_THRESHOLD
        ∧ (s.transactions h).amount ≤ s.balances (s.transactions h).from_
        ∧ s' = { s with
            balances := transferInternal s.balances (s.transactions h).from_
              (s.transactions h).to_ (s.transactions h).amount,
            forceFinalizeSigs := mapUpd s.forceFinalizeSigs h
              (s.forceFinalizeSigs h ++ [m]),
            transactions := mapUpd s.transactions h
              { s.transactions h with status := .AUTO_FINALIZED, finalizedAt := now },
            nonces := mapUpd s.nonces (s.transactions h).from_
              (s.nonces (s.transactions h).from_ + 1) })
      ∨ (  (s.forceFinalizeSigs h).length + 1 < MULTISIG_THRESHOLD
        ∧ s' = { s with
            forceFinalizeSigs := mapUpd s.forceFinalizeSigs h
              (s.forceFinalizeSigs h ++ [m]) })) := by
  unfold forceFinalize at hf
  repeat' split at hf
  all_goals simp_all

theorem disputeTx_ok_elim {m now : Nat} {h : TxKey} {ev : List Nat} {s s' : State}
    (hd : disputeTx m now h ev s = .ok s') :
    (s.transactions h).from_ ≠ 0 ∧ (s.transactions h).status = .PENDING
    ∧ now < (s.transactions h).submittedAt + DISPUTE_WINDOW
    ∧ (m = (s.transactions h).from_ ∨ m = (s.transactions h).to_)
    ∧ s' = { s with transactions := mapUpd s.transactions h
                      { s.transactions h with status := .REJECTED } } := by
  unfold disputeTx at hd
  repeat' split at hd
  all_goals simp_all

theorem exec_ok {s s' : State} {c : Call} (hr : run s c = .ok s') :
    exec s c = s' := by
  unfold exec; rw [hr]

theorem exec_error {s : State} {c : Call} {e : Err} (hr : run s c = .error e) :
    exec s c = s := by
  unfold exec; rw [hr]

theorem transferInternal_sum (bal : Addr → Nat) (f t amt : Nat) (hle : amt ≤ bal f) :
    transferInternal bal f t amt f + transferInternal bal f t amt t = bal f + bal t := by
  by_cases hft : f = t
  · subst hft
    simp [transferInternal, mapUpd]
    omega
  · simp [transferInternal, mapUpd, hft, Ne.symm hft]
    omega

/-! ### Claim C1 -/

/-- C1, as stated, is refuted at a concrete input: after a successful
registration of the fields `k1`, repeating the registration with identical
fields (sender, recipient, amount, nonce, expiry, dedupToken) fails — but
with `DuplicateDedupToken` (the `clientTxIdUsed` guard, source line 85),
not with `DuplicateTransaction` (the identifier-existence guard, line 95),
because the dedup-token guard is checked first. -/
theorem C1_counterexample :
    errOf (run initState (.submitOfflineTx 1 0 2 3 50 ⟨2, k1⟩ 0 1000000 11)) = none
    ∧ errOf (run stAfterFirstSubmit (.submitOfflineTx 1 5 2 3 50 ⟨2, k1⟩ 0 1000000 11))
        = some .DuplicateDedupToken
    ∧ Err.DuplicateDedupToken ≠ Err.DuplicateTransaction := by
  decide

/-- C1 (amended): for every registration call whose fields are identical
to those of an earlier successful registration, made by a relayer while
the declared expiry is still in the future, the repeated
`submitOfflineTx` call fails with `DuplicateDedupToken` — the consumed
dedup token is rejected before the duplicate identifier could even be
examined. -/
theorem C1_amended (s s' : State) (m now f t a n e c : Nat) (sig : Sig) (k : TxKey)
    (h1 : submitOfflineTx m now f t a sig n e c s = .ok (s', k))
    (m' now' : Nat) (sig' : Sig)
    (hrole : s'.relayerRole m' = true) (hexp : e > now') :
    submitOfflineTx m' now' f t a sig' n e c s' = .error .DuplicateDedupToken := by
  obtain ⟨hr, ht, ha, he, hc, hn, hf0, hk, hex, hs⟩ := submitOfflineTx_ok_elim h1
  subst hs
  unfold submitOfflineTx
  simp_all [mapUpd]

/-- Witness for `C1_amended`: the concrete repeated registration of `k1`. -/
theorem C1_amended_witness :
    submitOfflineTx 1 5 2 3 50 ⟨2, k1⟩ 0 1000000 11 stAfterFirstSubmit
      = .error .DuplicateDedupToken :=
  C1_amended initState stAfterFirstSubmit 1 0 2 3 50 0 1000000 11 ⟨2, k1⟩ k1
    rfl 1 5 ⟨2, k1⟩ rfl (by decide)

/-! ### Claim C2 -/

/-- C2: a sender can register a transfer with declared nonce 0 and one
with declared nonce 1 whose combined amount (160) exceeds the sender's
balance (100) — balance is not checked at registration (at the second
registration the remaining balance is 20 < 80); after the dispute window
the nonce-0 transfer finalizes successfully, and a subsequent finalize of
the nonce-1 transfer fails with `InsufficientFunds` and leaves that record
`PENDING`. (The nonce-1 registration necessarily happens after the nonce-0
finalize, since registration requires the declared nonce to equal the
sender's counter.) -/
theorem C2_scenario :
    k0.nonce = 0 ∧ kN1.nonce = 1
    ∧ k0.amount + kN1.amount = 160 ∧ stDeposited.balances 2 = 100
    ∧ errOf (run stDeposited (.submitOfflineTx 1 0 2 3 80 ⟨2, k0⟩ 0 2000000 21)) = none
    ∧ errOf (run stRegistered0 (.finalizeTx 1 604800 k0)) = none
    ∧ stFinalized0.balances 2 = 20
    ∧ errOf (run stFinalized0 (.submitOfflineTx 1 604800 2 4 80 ⟨2, kN1⟩ 1 2000000 22)) = none
    ∧ errOf (run stRegistered1 (.finalizeTx 1 1209600 kN1)) = some .InsufficientFunds
    ∧ ((exec stRegistered1 (.finalizeTx 1 1209600 kN1)).transactions kN1).status = .PENDING := by
  decide

/-! ### Claim C3 -/

/-- C3, as stated, is refuted at a concrete input: with the
operation-in-progress flag held, the mutating operations `deposit`,
`submitOfflineTx` and `disputeTx` all succeed instead of rejecting —
in the source only `withdraw`, `finalizeTx` and `forceFinalize` carry the
`nonReentrant` modifier. -/
theorem C3_counterexample :
    stLocked.locked = true
    ∧ errOf (run stLocked (.deposit 2 5)) = none
    ∧ errOf (run stLocked (.submitOfflineTx 1 0 2 3 50 ⟨2, k1⟩ 0 1000000 11)) = none
    ∧ stLockedPending.locked = true
    ∧ errOf (run stLockedPending (.disputeTx 2 3 k0 [])) = none := by
  decide

/-- C3 (amended): only `withdraw`, `finalizeTx` and `forceFinalize` check
the reentrancy lock flag at entry and reject the call (with a reentrancy
error) when it is already set; `deposit`, `submitOfflineTx` and
`disputeTx` perform no lock check — their outcome is the same whether or
not the flag is held. -/
theorem C3_amended (s : State) (hl : s.locked = true)
    (m now f t a n e c v : Nat) (sig : Sig) (h : TxKey) (ev : List Nat) :
    withdraw m v s = .error .Reentrancy
    ∧ (s.relayerRole m = true → finalizeTx m now h s = .error .Reentrancy)
    ∧ (s.multisigRole m = true → forceFinalize m now h s = .error .Reentrancy)
    ∧ errOf (deposit m v s) = errOf (deposit m v { s with locked := false })
    ∧ errOf ((submitOfflineTx m now f t a sig n e c s).map Prod.fst)
        = errOf ((submitOfflineTx m now f t a sig n e c { s with locked := false }).map Prod.fst)
    ∧ errOf (disputeTx m now h ev s)
        = errOf (disputeTx m now h ev { s with locked := false }) := by
  refine ⟨?_, ?_, ?_, ?_, ?_, ?_⟩
  · simp [withdraw, hl]
  · intro hr; simp [finalizeTx, hr, hl]
  · intro hr; simp [forceFinalize, hr, hl]
  · unfold deposit
    dsimp only
    repeat' split
    all_goals rfl
  · unfold submitOfflineTx
    dsimp only
    repeat' split
    all_goals rfl
  · unfold disputeTx
    dsimp only
    repeat' split
    all_goals rfl

/-- Witness for `C3_amended`: in the concrete held-lock state
`stLockedPending`, the three guarded operations reject and `disputeTx`
behaves identically to the unlocked state. -/
theorem C3_amended_witness :
    withdraw 1 0 stLockedPending = .error .Reentrancy
    ∧ finalizeTx 1 604800 k0 stLockedPending = .error .Reentrancy
    ∧ forceFinalize 1 604800 k0 stLockedPending = .error .Reentrancy
    ∧ errOf (disputeTx 1 604800 k0 [] stLockedPending)
        = errOf (disputeTx 1 604800 k0 [] { stLockedPending with locked := false }) := by
  obtain ⟨h1, h2, h3, _, _, h6⟩ :=
    C3_amended stLockedPending rfl 1 604800 2 3 50 0 1000000 11 0 ⟨2, k1⟩ k0 []
  exact ⟨h1, h2 rfl, h3 rfl, h6⟩

/-! ### Claim C4 -/

/-- C4: every successful `finalizeTx`, and every `forceFinalize` call that
succeeds (in particular one reaching the quorum threshold and performing
the transfer), preserves `balance[sender] + balance[recipient]`; and the
debit only occurs under the guard `balance[sender] >= amount` (so no
balance ever goes below zero: the subtraction never truncates). -/
theorem C4_conservation (s s' : State) (m now : Nat) (h : TxKey) :
    (finalizeTx m now h s = .ok s' →
      (s.transactions h).amount ≤ s.balances (s.transactions h).from_
      ∧ s'.balances (s.transactions h).from_ + s'.balances (s.transactions h).to_
          = s.balances (s.transactions h).from_ + s.balances (s.transactions h).to_)
    ∧ (forceFinalize m now h s = .ok s' →
      (s'.balances (s.transactions h).from_ + s'.balances (s.transactions h).to_
          = s.balances (s.transactions h).from_ + s.balances (s.transactions h).to_)
      ∧ ((s.forceFinalizeSigs h).length + 1 ≥ MULTISIG_THRESHOLD →
          (s.transactions h).amount ≤ s.balances (s.transactions h).from_)) := by
  constructor
  · intro hf
    obtain ⟨_, _, _, _, _, _, hle, hs⟩ := finalizeTx_ok_elim hf
    subst hs
    exact ⟨hle, transferInternal_sum s.balances (s.transactions h).from_
      (s.transactions h).to_ (s.transactions h).amount hle⟩
  · intro hf
    obtain ⟨_, _, _, _, _, _, hbr⟩ := forceFinalize_ok_elim hf
    rcases hbr with ⟨hq, hle, hs⟩ | ⟨hq, hs⟩
    · subst hs
      exact ⟨transferInternal_sum s.balances (s.transactions h).from_
        (s.transactions h).to_ (s.transactions h).amount hle, fun _ => hle⟩
    · subst hs
      exact ⟨rfl, fun hq2 => absurd hq2 (by omega)⟩

/-- Witness for `C4_conservation`: the concrete successful finalize of
`k0` (80 units out of a balance of 100). -/
theorem C4_conservation_witness :
    (stRegistered0.transactions k0).amount
        ≤ stRegistered0.balances (stRegistered0.transactions k0).from_
    ∧ stFinalized0.balances (stRegistered0.transactions k0).from_
        + stFinalized0.balances (stRegistered0.transactions k0).to_
      = stRegistered0.balances (stRegistered0.transactions k0).from_
        + stRegistered0.balances (stRegistered0.transactions k0).to_ :=
  (C4_conservation stRegistered0 stFinalized0 1 604800 k0).1 rfl

/-! ### Claim C5 -/

/-- C5: every failing call leaves all mutable state exactly as it was
(EVM revert semantics, reflected by `exec`); in particular, when
`forceFinalize` reaches the quorum threshold with the new approval but
`balance[sender] < amount`, the call fails with `InsufficientFunds`, so
the approver's ballot entry is not retained and the record stays
`PENDING` (the post-state is the pre-state). -/
theorem C5_atomic_failure (s : State) (m now : Nat) (h : TxKey) :
    (∀ (c : Call) (e : Err), run s c = .error e → exec s c = s)
    ∧ (s.multisigRole m = true → s.locked = false →
       (s.transactions h).from_ ≠ 0 → (s.transactions h).status = .PENDING →
       now ≥ (s.transactions h).submittedAt + FORCE_FINALIZE_DELAY →
       m ∉ s.forceFinalizeSigs h →
       (s.forceFinalizeSigs h).length + 1 ≥ MULTISIG_THRESHOLD →
       s.balances (s.transactions h).from_ < (s.transactions h).amount →
       forceFinalize m now h s = .error .InsufficientFunds
         ∧ exec s (.forceFinalize m now h) = s) := by
  constructor
  · intro c e hr
    exact exec_error hr
  · intro h1 h2 h3 h4 h5 h6 h7 h8
    have herr : forceFinalize m now h s = .error .InsufficientFunds := by
      unfold forceFinalize
      simp [h1, h2, h3, h4, h5, h6, List.length_append]
      split
      next =>
        split
        next hc => exact absurd hc (by omega)
        next => rfl
      next hc => exact absurd h7 hc
    have hrun : run s (Call.forceFinalize m now h) = .error .InsufficientFunds := herr
    exact ⟨herr, exec_error hrun⟩

/-- Witness for `C5_atomic_failure`: the third approval on `k0` with the
sender's balance still 0. -/
theorem C5_atomic_failure_witness :
    forceFinalize 1 1209600 k0 stTwoApprovals = .error .InsufficientFunds
    ∧ exec stTwoApprovals (.forceFinalize 1 1209600 k0) = stTwoApprovals :=
  (C5_atomic_failure stTwoApprovals 1 1209600 k0).2 (by decide) (by decide)
    (by decide) (by decide) (by decide) (by decide) (by decide) (by decide)

/-! ### Claim C6 -/

/-- C6: for every identity `a` and every call, `nonces[a]` after the call
is `nonces[a]` before it plus exactly the increment the specification
prescribes (`nonceDeltaSpec`): `1` on a successful `finalizeTx` of a
transfer with sender `a` and on a quorum-reaching successful
`forceFinalize` of such a transfer, `0` on every other outcome — including
below-threshold approvals, successful disputes, and every failed call. -/
theorem C6_nonce_increment (s : State) (c : Call) (a : Addr) :
    (exec s c).nonces a = s.nonces a + nonceDeltaSpec s c a := by
  cases c with
  | deposit m v =>
      rcases hr : deposit m v s with e | s'
      · have hrun : run s (Call.deposit m v) = .error e := hr
        simp [exec_error hrun, nonceDeltaSpec]
      · have hrun : run s (Call.deposit m v) = .ok s' := hr
        obtain ⟨_, hs⟩ := deposit_ok_elim hr
        subst hs
        simp [exec_ok hrun, nonceDeltaSpec]
  | withdraw m v =>
      rcases hr : withdraw m v s with e | s'
      · have hrun : run s (Call.withdraw m v) = .error e := hr
        simp [exec_error hrun, nonceDeltaSpec]
      · have hrun : run s (Call.withdraw m v) = .ok s' := hr
        obtain ⟨_, _, hs⟩ := withdraw_ok_elim hr
        subst hs
        simp [exec_ok hrun, nonceDeltaSpec]
  | submitOfflineTx m now f t amt sig n e cid =>
      rcases hr : (submitOfflineTx m now f t amt sig n e cid s).map Prod.fst with er | s'
      · have hrun : run s (Call.submitOfflineTx m now f t amt sig n e cid) = .error er := hr
        simp [exec_error hrun, nonceDeltaSpec]
      · have hrun : run s (Call.submitOfflineTx m now f t amt sig n e cid) = .ok s' := hr
        rcases hr2 : submitOfflineTx m now f t amt sig n e cid s with er2 | p
        · rw [hr2] at hr; simp [Except.map] at hr
        · obtain ⟨_, _, _, _, _, _, _, _, _, hs⟩ := submitOfflineTx_ok_elim hr2
          rw [hr2] at hr
          simp [Except.map] at hr
          rw [exec_ok hrun, ← hr, hs]
          simp [nonceDeltaSpec]
  | finalizeTx m now h =>
      rcases hr : finalizeTx m now h s with e | s'
      · have hrun : run s (Call.finalizeTx m now h) = .error e := hr
        simp [exec_error hrun, nonceDeltaSpec, errOf, hr]
      · have hrun : run s (Call.finalizeTx m now h) = .ok s' := hr
        obtain ⟨_, _, _, _, _, _, _, hs⟩ := finalizeTx_ok_elim hr
        subst hs
        rw [exec_ok hrun]
        simp only [nonceDeltaSpec, errOf, hr, mapUpd]
        by_cases hfa : a = (s.transactions h).from_
        · subst hfa; simp
        · have hfa2 : ¬ (s.transactions h).from_ = a := fun hx => hfa hx.symm
          simp [hfa, hfa2]
  | forceFinalize m now h =>
      rcases hr : forceFinalize m now h s with e | s'
      · have hrun : run s (Call.forceFinalize m now h) = .error e := hr
        simp [exec_error hrun, nonceDeltaSpec, errOf, hr]
      · have hrun : run s (Call.forceFinalize m now h) = .ok s' := hr
        obtain ⟨_, _, _, _, _, _, hbr⟩ := forceFinalize_ok_elim hr
        rcases hbr with ⟨hq, _, hs⟩ | ⟨hq, hs⟩
        · subst hs
          rw [exec_ok hrun]
          simp only [nonceDeltaSpec, errOf, hr, mapUpd]
          by_cases hfa : a = (s.transactions h).from_
          · subst hfa; simp [hq]
          · have hfa2 : ¬ (s.transactions h).from_ = a := fun hx => hfa hx.symm
            simp [hfa, hfa2]
        · subst hs
          rw [exec_ok hrun]
          simp only [nonceDeltaSpec, errOf, hr]
          have : ¬ ((s.forceFinalizeSigs h).length + 1 ≥ MULTISIG_THRESHOLD) := by omega
          simp [this]
  | disputeTx m now h ev =>
      rcases hr : disputeTx m now h ev s with e | s'
      · have hrun : run s (Call.disputeTx m now h ev) = .error e := hr
        simp [exec_error hrun, nonceDeltaSpec]
      · have hrun : run s (Call.disputeTx m now h ev) = .ok s' := hr
        obtain ⟨_, _, _, _, hs⟩ := disputeTx_ok_elim hr
        subst hs
        simp [exec_ok hrun, nonceDeltaSpec]

/-! ### Claim C7 -/

/-- C7, as stated, is refuted at a concrete input: `kX` is `PENDING` and
the call time 200 lies inside its dispute window (200 < 0 + 604800), yet
`finalizeTx` fails with `Expired`, not `DisputeWindowActive`: the expiry
check (source line 119) precedes the window check (line 120) and `kX`'s
expiry 100 has already passed. -/
theorem C7_counterexample :
    (stShortExpiry.transactions kX).status = .PENDING
    ∧ 200 < (stShortExpiry.transactions kX).submittedAt + DISPUTE_WINDOW
    ∧ errOf (run stShortExpiry (.finalizeTx 1 200 kX)) = some .Expired
    ∧ Err.Expired ≠ Err.DisputeWindowActive := by
  decide

/-- C7 (amended): for every PENDING record, `disputeTx`'s timing gate
passes exactly when `now < registrationTime + DISPUTE_WINDOW` (otherwise
`disputeTx` fails with `DisputeWindowClosed`); `finalizeTx`'s timing gate
passes only when `now ≥ registrationTime + DISPUTE_WINDOW` — inside the
window it fails with `DisputeWindowActive` when the record is unexpired
and with `Expired` when `now` is past the expiry; hence no state admits
both a successful dispute and a successful cooperative finalize at the
same time. -/
theorem C7_amended (s : State) (m now : Nat) (h : TxKey)
    (hfound : (s.transactions h).from_ ≠ 0)
    (hpending : (s.transactions h).status = .PENDING) :
    (now ≥ (s.transactions h).submittedAt + DISPUTE_WINDOW →
      ∀ (m2 : Addr) (ev : List Nat),
        disputeTx m2 now h ev s = .error .DisputeWindowClosed)
    ∧ (s.relayerRole m = true → s.locked = false →
        now < (s.transactions h).submittedAt + DISPUTE_WINDOW →
        (now ≤ (s.transactions h).expiry →
          finalizeTx m now h s = .error .DisputeWindowActive)
        ∧ ((s.transactions h).expiry < now →
          finalizeTx m now h s = .error .Expired))
    ∧ (∀ (m2 : Addr) (ev : List Nat) (s1 s2 : State),
        disputeTx m2 now h ev s = .ok s1 → finalizeTx m now h s ≠ .ok s2) := by
  refine ⟨?_, ?_, ?_⟩
  · intro hw m2 ev
    have hnl : ¬ (now < (s.transactions h).submittedAt + DISPUTE_WINDOW) := by omega
    unfold disputeTx
    simp [hfound, hpending, hnl]
  · intro hrole hlock hlt
    constructor
    · intro hexp
      have hnw : ¬ (now ≥ (s.transactions h).submittedAt + DISPUTE_WINDOW) := by omega
      unfold finalizeTx
      simp [hrole, hlock, hfound, hpending, hexp, hnw]
    · intro hexp
      have hne : ¬ (now ≤ (s.transactions h).expiry) := by omega
      unfold finalizeTx
      simp [hrole, hlock, hfound, hpending, hne]
  · intro m2 ev s1 s2 hd hf
    obtain ⟨_, _, hlt, _, _⟩ := disputeTx_ok_elim hd
    obtain ⟨_, _, _, _, _, hge, _, _⟩ := finalizeTx_ok_elim hf
    omega

/-- Witness for `C7_amended`: on the concrete pending record `k0` three
seconds after registration, `finalizeTx` rejects with
`DisputeWindowActive`. -/
theorem C7_amended_witness :
    finalizeTx 1 3 k0 stRegistered0 = .error .DisputeWindowActive :=
  ((C7_amended stRegistered0 1 3 k0 (by decide) (by decide)).2.1
    rfl rfl (by decide)).1 (by decide)

/-! ### Claim C8 helpers -/

theorem exec_WF (s : State) (c : Call) (hWF : WF s) : WF (exec s c) := by
  rcases hr : run s c with e | s'
  · rw [exec_error hr]; exact hWF
  · rw [exec_ok hr]
    cases c with
    | deposit m v =>
        obtain ⟨_, hs⟩ := deposit_ok_elim hr
        subst hs; exact hWF
    | withdraw m v =>
        obtain ⟨_, _, hs⟩ := withdraw_ok_elim hr
        subst hs; exact hWF
    | submitOfflineTx m now f t amt sig n e cid =>
        simp only [run] at hr
        rcases hr2 : submitOfflineTx m now f t amt sig n e cid s with er2 | p
        · rw [hr2] at hr; simp [Except.map] at hr
        · obtain ⟨_, _, _, _, _, _, hf0, _, _, hs⟩ := submitOfflineTx_ok_elim hr2
          rw [hr2] at hr
          simp [Except.map] at hr
          rw [← hr, hs]
          intro k hk
          by_cases hkk : k = p.2
          · subst hkk
            simp [mapUpd] at hk
            exact absurd hk hf0
          · simp only [mapUpd, if_neg hkk] at hk ⊢
            exact hWF k hk
    | finalizeTx m now h =>
        obtain ⟨_, _, hf0, _, _, _, _, hs⟩ := finalizeTx_ok_elim hr
        subst hs
        intro k hk
        by_cases hkk : k = h
        · subst hkk
          simp only [mapUpd, if_pos rfl] at hk
          exact absurd hk hf0
        · simp only [mapUpd, if_neg hkk] at hk ⊢
          exact hWF k hk
    | forceFinalize m now h =>
        obtain ⟨_, _, hf0, _, _, _, hbr⟩ := forceFinalize_ok_elim hr
        rcases hbr with ⟨_, _, hs⟩ | ⟨_, hs⟩
        · subst hs
          intro k hk
          by_cases hkk : k = h
          · subst hkk
            simp only [mapUpd, if_pos rfl] at hk
            exact absurd hk hf0
          · simp only [mapUpd, if_neg hkk] at hk ⊢
            exact hWF k hk
        · subst hs; exact hWF
    | disputeTx m now h ev =>
        simp only [run] at hr
        obtain ⟨hf0, _, _, _, hs⟩ := disputeTx_ok_elim hr
        subst hs
        intro k hk
        by_cases hkk : k = h
        · subst hkk
          simp only [mapUpd, if_pos rfl] at hk
          exact absurd hk hf0
        · simp only [mapUpd, if_neg hkk] at hk ⊢
          exact hWF k hk

theorem exec_status_step (s : State) (c : Call) (h : TxKey) (hWF : WF s) :
    ((exec s c).transactions h).status = (s.transactions h).status
    ∨ ((s.transactions h).status = .PENDING
       ∧ (((exec s c).transactions h).status = .FINALIZED
          ∨ ((exec s c).transactions h).status = .REJECTED
          ∨ ((exec s c).transactions h).status = .AUTO_FINALIZED)) := by
  rcases hr : run s c with e | s'
  · rw [exec_error hr]; exact Or.inl rfl
  · rw [exec_ok hr]
    cases c with
    | deposit m v =>
        obtain ⟨_, hs⟩ := deposit_ok_elim hr
        subst hs; exact Or.inl rfl
    | withdraw m v =>
        obtain ⟨_, _, hs⟩ := withdraw_ok_elim hr
        subst hs; exact Or.inl rfl
    | submitOfflineTx m now f t amt sig n e cid =>
        simp only [run] at hr
        rcases hr2 : submitOfflineTx m now f t amt sig n e cid s with er2 | p
        · rw [hr2] at hr; simp [Except.map] at hr
        · obtain ⟨_, _, _, _, _, _, _, _, hemp, hs⟩ := submitOfflineTx_ok_elim hr2
          rw [hr2] at hr
          simp [Except.map] at hr
          rw [← hr, hs]
          by_cases hkk : h = p.2
          · subst hkk
            simp only [mapUpd, if_pos rfl]
            exact Or.inl (hWF p.2 hemp).symm
          · simp only [mapUpd, if_neg hkk]
            exact Or.inl trivial
    | finalizeTx m now h2 =>
        obtain ⟨_, _, _, hp, _, _, _, hs⟩ := finalizeTx_ok_elim hr
        subst hs
        by_cases hkk : h = h2
        · subst hkk
          simp only [mapUpd, if_pos rfl]
          exact Or.inr ⟨hp, Or.inl rfl⟩
        · simp only [mapUpd, if_neg hkk]
          exact Or.inl trivial
    | forceFinalize m now h2 =>
        obtain ⟨_, _, _, hp, _, _, hbr⟩ := forceFinalize_ok_elim hr
        rcases hbr with ⟨_, _, hs⟩ | ⟨_, hs⟩
        · subst hs
          by_cases hkk : h = h2
          · subst hkk
            simp only [mapUpd, if_pos rfl]
            exact Or.inr ⟨hp, Or.inr (Or.inr rfl)⟩
          · simp only [mapUpd, if_neg hkk]
            exact Or.inl trivial
        · subst hs; exact Or.inl rfl
    | disputeTx m now h2 ev =>
        simp only [run] at hr
        obtain ⟨_, hp, _, _, hs⟩ := disputeTx_ok_elim hr
        subst hs
        by_cases hkk : h = h2
        · subst hkk
          simp only [mapUpd, if_pos rfl]
          exact Or.inr ⟨hp, Or.inr (Or.inl rfl)⟩
        · simp only [mapUpd, if_neg hkk]
          exact Or.inl trivial

theorem exec_keeps_record (s : State) (c : Call) (h : TxKey)
    (hne : (s.transactions h).from_ ≠ 0) :
    ((exec s c).transactions h).from_ ≠ 0 := by
  rcases hr : run s c with e | s'
  · rw [exec_error hr]; exact hne
  · rw [exec_ok hr]
    cases c with
    | deposit m v =>
        obtain ⟨_, hs⟩ := deposit_ok_elim hr
        subst hs; exact hne
    | withdraw m v =>
        obtain ⟨_, _, hs⟩ := withdraw_ok_elim hr
        subst hs; exact hne
    | submitOfflineTx m now f t amt sig n e cid =>
        simp only [run] at hr
        rcases hr2 : submitOfflineTx m now f t amt sig n e cid s with er2 | p
        · rw [hr2] at hr; simp [Except.map] at hr
        · obtain ⟨_, _, _, _, _, _, hf0, _, _, hs⟩ := submitOfflineTx_ok_elim hr2
          rw [hr2] at hr
          simp [Except.map] at hr
          rw [← hr, hs]
          by_cases hkk : h = p.2
          · subst hkk
            simp only [mapUpd, if_pos rfl]
            exact hf0
          · simp only [mapUpd, if_neg hkk]
            exact hne
    | finalizeTx m now h2 =>
        obtain ⟨_, _, hf0, _, _, _, _, hs⟩ := finalizeTx_ok_elim hr
        subst hs
        by_cases hkk : h = h2
        · subst hkk
          simp only [mapUpd, if_pos rfl]
          exact hf0
        · simp only [mapUpd, if_neg hkk]
          exact hne
    | forceFinalize m now h2 =>
        obtain ⟨_, _, hf0, _, _, _, hbr⟩ := forceFinalize_ok_elim hr
        rcases hbr with ⟨_, _, hs⟩ | ⟨_, hs⟩
        · subst hs
          by_cases hkk : h = h2
          · subst hkk
            simp only [mapUpd, if_pos rfl]
            exact hf0
          · simp only [mapUpd, if_neg hkk]
            exact hne
        · subst hs; exact hne
    | disputeTx m now h2 ev =>
        simp only [run] at hr
        obtain ⟨hf0, _, _, _, hs⟩ := disputeTx_ok_elim hr
        subst hs
        by_cases hkk : h = h2
        · subst hkk
          simp only [mapUpd, if_pos rfl]
          exact hf0
        · simp only [mapUpd, if_neg hkk]
          exact hne

/-! ### Claim C8 -/

/-- C8: on every reachable state (the `WF` invariant holds at deployment
and is preserved by every call), each call either leaves a record's status
unchanged or moves it from `PENDING` to exactly one of the terminal
statuses `FINALIZED`, `REJECTED`, `AUTO_FINALIZED`; no record is ever
deleted (a non-null sender stays non-null); no sequence of calls ever
changes the status of a record already in a terminal (non-PENDING) state;
and `finalizeTx`, `forceFinalize` and `disputeTx` fail with `InvalidState`
on a found record that is not `PENDING`. -/
theorem C8_status_machine :
    (∀ (s : State) (c : Call) (h : TxKey), WF s →
      ((exec s c).transactions h).status = (s.transactions h).status
      ∨ ((s.transactions h).status = .PENDING
         ∧ (((exec s c).transactions h).status = .FINALIZED
            ∨ ((exec s c).transactions h).status = .REJECTED
            ∨ ((exec s c).transactions h).status = .AUTO_FINALIZED)))
    ∧ (∀ (s : State) (c : Call) (h : TxKey),
      (s.transactions h).from_ ≠ 0 → ((exec s c).transactions h).from_ ≠ 0)
    ∧ (∀ (s : State) (cs : List Call) (h : TxKey), WF s →
      (s.transactions h).status ≠ .PENDING →
      ((cs.foldl exec s).transactions h).status = (s.transactions h).status)
    ∧ (∀ (s : State) (m now : Nat) (h : TxKey) (ev : List Nat),
      (s.transactions h).from_ ≠ 0 → (s.transactions h).status ≠ .PENDING →
      (s.relayerRole m = true → s.locked = false →
        finalizeTx m now h s = .error .InvalidState)
      ∧ (s.multisigRole m = true → s.locked = false →
        forceFinalize m now h s = .error .InvalidState)
      ∧ disputeTx m now h ev s = .error .InvalidState) := by
  refine ⟨fun s c h hWF => exec_status_step s c h hWF,
          fun s c h hne => exec_keeps_record s c h hne, ?_, ?_⟩
  · intro s cs h
    induction cs generalizing s with
    | nil => intro _ _; rfl
    | cons c cs ih =>
        intro hWF hnp
        have hWF2 := exec_WF s c hWF
        rcases exec_status_step s c h hWF with heq | ⟨hpend, _⟩
        · have hnp2 : ((exec s c).transactions h).status ≠ .PENDING := by
            rw [heq]; exact hnp
          exact (ih (exec s c) hWF2 hnp2).trans heq
        · exact absurd hpend hnp
  · intro s m now h ev hfound hnp
    refine ⟨?_, ?_, ?_⟩
    · intro hrole hlock
      unfold finalizeTx
      simp [hrole, hlock, hfound, hnp]
    · intro hrole hlock
      unfold forceFinalize
      simp [hrole, hlock, hfound, hnp]
    · unfold disputeTx
      simp [hfound, hnp]

/-- Witness for `C8_status_machine`: on the concrete state where `k0` is
already `FINALIZED`, finalize and dispute both reject with
`InvalidState`. -/
theorem C8_status_machine_witness :
    finalizeTx 1 9999999 k0 stFinalized0 = .error .InvalidState
    ∧ disputeTx 1 9999999 k0 [] stFinalized0 = .error .InvalidState := by
  obtain ⟨hfin, hforce, hdis⟩ :=
    C8_status_machine.2.2.2 stFinalized0 1 9999999 k0 [] (by decide) (by decide)
  exact ⟨hfin rfl rfl, hdis⟩

/-! ### Claim C9 -/

/-- C9: every `disputeTx` call, succeeding or failing, leaves every
balance and every nonce unchanged; a successful dispute changes nothing
but the record's status, which it sets to `REJECTED`. -/
theorem C9_dispute_frame (s : State) (m now : Nat) (h : TxKey) (ev : List Nat) :
    (exec s (.disputeTx m now h ev)).balances = s.balances
    ∧ (exec s (.disputeTx m now h ev)).nonces = s.nonces
    ∧ (∀ s', disputeTx m now h ev s = .ok s' →
        s' = { s with transactions := mapUpd s.transactions h
                        { s.transactions h with status := .REJECTED } }) := by
  have h3 : ∀ s', disputeTx m now h ev s = .ok s' →
      s' = { s with transactions := mapUpd s.transactions h
                      { s.transactions h with status := .REJECTED } } :=
    fun s' hd => (disputeTx_ok_elim hd).2.2.2.2
  refine ⟨?_, ?_, h3⟩ <;>
  · rcases hr : disputeTx m now h ev s with e | s'
    · have hrun : run s (Call.disputeTx m now h ev) = .error e := hr
      rw [exec_error hrun]
    · have hrun : run s (Call.disputeTx m now h ev) = .ok s' := hr
      rw [exec_ok hrun, h3 s' hr]

/-- Witness for `C9_dispute_frame`: the concrete successful dispute of
`k0` by its sender at time 3. -/
theorem C9_dispute_frame_witness :
    exec stRegistered0 (.disputeTx 2 3 k0 [])
      = { stRegistered0 with
          transactions := mapUpd stRegistered0.transactions k0
            { stRegistered0.transactions k0 with status := .REJECTED } } :=
  (C9_dispute_frame stRegistered0 2 3 k0 []).2.2
    (exec stRegistered0 (.disputeTx 2 3 k0 [])) rfl

/-! ### Claim C10 -/

/-- C10: `forceFinalize` performs no expiry check. For a `PENDING` record
whose expiry has passed (`expiry < now`) but whose escalation delay has
elapsed, a fresh approval is still accepted: below the quorum threshold
the approval is appended; at the threshold (with sufficient sender
balance) the transfer is performed and the status becomes
`AUTO_FINALIZED` — while `finalizeTx` on the very same record and time
rejects with `Expired`. -/
theorem C10_force_ignores_expiry (s : State) (m now : Nat) (h : TxKey)
    (hrole : s.multisigRole m = true) (hlock : s.locked = false)
    (hfound : (s.transactions h).from_ ≠ 0)
    (hpending : (s.transactions h).status = .PENDING)
    (hexpired : (s.transactions h).expiry < now)
    (hdelay : now ≥ (s.transactions h).submittedAt + FORCE_FINALIZE_DELAY)
    (hnew : m ∉ s.forceFinalizeSigs h) :
    ((s.forceFinalizeSigs h).length + 1 < MULTISIG_THRESHOLD →
      forceFinalize m now h s
        = .ok { s with forceFinalizeSigs := mapUpd s.forceFinalizeSigs h
                         (s.forceFinalizeSigs h ++ [m]) })
    ∧ ((s.forceFinalizeSigs h).length + 1 ≥ MULTISIG_THRESHOLD →
       (s.transactions h).amount ≤ s.balances (s.transactions h).from_ →
      ∃ s', forceFinalize m now h s = .ok s'
        ∧ (s'.transactions h).status = .AUTO_FINALIZED
        ∧ s'.balances = transferInternal s.balances (s.transactions h).from_
            (s.transactions h).to_ (s.transactions h).amount)
    ∧ (s.relayerRole m = true → finalizeTx m now h s = .error .Expired) := by
  have hnl : ¬ (s.locked = true) := by simp [hlock]
  refine ⟨?_, ?_, ?_⟩
  · intro hq
    have hql : ¬ ((s.forceFinalizeSigs h ++ [m]).length ≥ MULTISIG_THRESHOLD) := by
      simp only [List.length_append, List.length_cons, List.length_nil]
      omega
    unfold forceFinalize
    rw [if_pos hrole, if_neg hnl, if_pos hfound, if_pos hpending, if_pos hdelay,
        if_neg hnew, if_neg hql]
  · intro hq hbal
    have hql : (s.forceFinalizeSigs h ++ [m]).length ≥ MULTISIG_THRESHOLD := by
      simp only [List.length_append, List.length_cons, List.length_nil]
      omega
    refine ⟨{ s with
        balances := transferInternal s.balances (s.transactions h).from_
          (s.transactions h).to_ (s.transactions h).amount,
        forceFinalizeSigs := mapUpd s.forceFinalizeSigs h (s.forceFinalizeSigs h ++ [m]),
        transactions := mapUpd s.transactions h
          { s.transactions h with status := .AUTO_FINALIZED, finalizedAt := now },
        nonces := mapUpd s.nonces (s.transactions h).from_
          (s.nonces (s.transactions h).from_ + 1) }, ?_, ?_, ?_⟩
    · unfold forceFinalize
      rw [if_pos hrole, if_neg hnl, if_pos hfound, if_pos hpending, if_pos hdelay,
          if_neg hnew, if_pos hql, if_pos hbal]
    · simp [mapUpd]
    · rfl
  · intro hrel
    have hne : ¬ (now ≤ (s.transactions h).expiry) := by omega
    unfold finalizeTx
    rw [if_pos hrel, if_neg hnl, if_pos hfound, if_pos hpending, if_neg hne]

/-- Witness for `C10_force_ignores_expiry`: the third approval on the
long-expired record `kX` still auto-finalizes it, while `finalizeTx`
rejects with `Expired` at the same time. -/
theorem C10_force_ignores_expiry_witness :
    (∃ s', forceFinalize 1 1209600 kX stExpiredTwoApprovals = .ok s'
      ∧ (s'.transactions kX).status = .AUTO_FINALIZED
      ∧ s'.balances = transferInternal stExpiredTwoApprovals.balances 2 3 50)
    ∧ finalizeTx 1 1209600 kX stExpiredTwoApprovals = .error .Expired := by
  have hC := C10_force_ignores_expiry stExpiredTwoApprovals 1 1209600 kX
    (by decide) (by decide) (by decide) (by decide) (by decide) (by decide) (by decide)
  exact ⟨hC.2.1 (by decide) (by decide), hC.2.2 rfl⟩

end BridgePay
